import Mathlib

/-!
# Single-cylinder engine simulation: physics update pipeline

Shallow embedding of the physics core of `main.c` (`FrustumLSA`, `TcsFromFp`,
`updPiston`, `updCylinder`, `updShaft` and the per-frame update sequence of
`main`).

The C code computes on `double`.  The embedding is written once, over an
abstract number type `α` carrying exactly the operations the C code uses
(`+ - * /`, unary minus, numeric literals, `M_PI`, `sin`, `cos`, `sqrt`, the
comparison `>` and `isnan`), so that the definitions below are the program
text and nothing else.  Frame properties are proved for every such `α`.  The
theorems about values read the program in the interpretation `Dbl`: the real
numbers extended with `+∞`, `-∞` and NaN, with the IEEE-754 rules for the
special values (division by zero, square root of a negative number, `∞ - ∞`,
`0 * ∞`, comparisons with NaN).  Rounding, overflow of finite values and the
sign of zero are not modelled: a finite `double` is a real number, a literal
is its decimal value and `M_PI` is `π`.
-/

namespace Engine

/-! ## Number interface -/

/-- The operations of `double` and `<math.h>` that the program uses besides
the four arithmetic operators and unary minus. -/
class DoubleOps (α : Type) where
  /-- A numeric literal of the source text (`2`, `10.0`, `0.0001`, ...), also
  the conversion of an `int` to `double`. -/
  lit : ℚ → α
  /-- The constant `M_PI`. -/
  M_PI : α
  /-- The function `sin` of `<math.h>`. -/
  sin : α → α
  /-- The function `cos` of `<math.h>`. -/
  cos : α → α
  /-- The function `sqrt` of `<math.h>`. -/
  sqrt : α → α
  /-- The comparison `a > b`. -/
  gt : α → α → Bool
  /-- The classification macro `isnan`. -/
  isnan : α → Bool

open DoubleOps

/-! ## Data model (the four `struct`s of `main.c`) -/

/-- The C type `struct phys_Shaft`. -/
structure phys_Shaft (α : Type) where
  x : α
  y : α
  angle : α
  radius : α
  inertia : α
  omega : α
  accel : α
  torque : α
  Mu : α

/-- The C type `struct cylinder`. -/
structure cylinder (α : Type) where
  bore : α
  stroke : α
  pressure : α
  apressure : α

/-- The C type `struct head`. -/
structure head (α : Type) where
  intakePressure : α
  headVolume : α
  exhaustDisplacement : α
  intakeDisplacement : α
  intakeVRadius : α
  intakeSRadius : α
  exhaustVRadius : α
  exhaustSRadius : α

/-- The C type `struct piston`. -/
structure piston (α : Type) where
  rodLength : α
  position : α
  velocity : α
  area : α
  inForce : α
  outForce : α
  nForce : α

/-- The four objects that `main` allocates and passes by pointer to the update
functions: the memory the physics code reads and writes. -/
structure Sim (α : Type) where
  crankshaft : phys_Shaft α
  cyl_1 : cylinder α
  head_1 : head α
  piston_1 : piston α

section Program

variable {α : Type} [Add α] [Sub α] [Mul α] [Div α] [Neg α] [DoubleOps α]

/-! ## Pure helper functions -/

/-- C function `FrustumLSA` (main.c 78-82). -/
def FrustumLSA (R r h : α) : α :=
  let LSA := M_PI * (R + r) * sqrt ((R - r) * (R - r) + h * h)
  LSA

/-- C function `TcsFromFp` (main.c 84-88). -/
def TcsFromFp (fp theta L R : α) : α :=
  let n := L / R
  let Tcs := fp * R * (cos theta + (sin (lit 2 * theta)) / (lit 2 * sqrt (n * n - sin theta * sin theta)))
  Tcs

/-! ## Update stages -/

/-- C function `updPiston` (main.c 94-117); the assignments through the
`piston` pointer are performed in source order. -/
def updPiston (m : Sim α) : Sim α :=
  let angle := m.crankshaft.angle
  let length := m.piston_1.rodLength
  let cradius := m.crankshaft.radius
  let omega := m.crankshaft.omega
  let n := length / cradius
  let sa := sin (angle + M_PI / lit 2)
  let m := { m with piston_1 := { m.piston_1 with
    area := (m.cyl_1.bore / lit 2) * (m.cyl_1.bore / lit 2) * M_PI } }
  let m := { m with piston_1 := { m.piston_1 with
    position := cradius * cos (angle + M_PI / lit 2)
      + sqrt (length * length - cradius * cradius * sa * sa) } }
  let m := { m with piston_1 := { m.piston_1 with
    velocity := -omega * cradius
      * (sa + (sin (lit 2 * angle + M_PI / lit 2) / (lit 2 * sqrt (n * n - sa * sa)))) } }
  let m := { m with piston_1 := { m.piston_1 with
    inForce := m.cyl_1.pressure * m.piston_1.area } }
  let m := { m with piston_1 := { m.piston_1 with
    outForce := m.cyl_1.apressure * m.piston_1.area } }
  let m := { m with piston_1 := { m.piston_1 with
    nForce := m.piston_1.inForce - m.piston_1.outForce } }
  m

/-- C function `updCylinder` (main.c 120-141). -/
def updCylinder (m : Sim α) : Sim α :=
  let vp := m.piston_1.velocity
  let ap := m.piston_1.area
  let vi := m.piston_1.area * m.cyl_1.stroke / lit 2
  let vc := m.piston_1.area * (m.cyl_1.stroke + m.piston_1.rodLength - m.piston_1.position)
  let av := FrustumLSA m.head_1.exhaustVRadius m.head_1.exhaustSRadius m.head_1.exhaustDisplacement
  let pa := m.cyl_1.apressure
  let rho : α := lit 1.225
  let pc : α :=
    if gt av (lit 0.0001) then
      let vaa := vp * ap / av
      lit 0.5 * rho * (vaa * vaa - vp * vp) + pa
    else
      vi * pa / vc
  { m with cyl_1 := { m.cyl_1 with pressure := pc } }

/-- C function `updShaft` (main.c 144-159); each statement reads the fields
written by the statements before it. -/
def updShaft (m : Sim α) (extraTorque dt : α) : Sim α :=
  let m := { m with crankshaft := { m.crankshaft with
    torque := TcsFromFp m.piston_1.nForce m.crankshaft.angle m.piston_1.rodLength
      m.crankshaft.radius + extraTorque } }
  let m := { m with crankshaft := { m.crankshaft with
    accel := m.crankshaft.torque / m.crankshaft.inertia } }
  let m := { m with crankshaft := { m.crankshaft with
    omega := m.crankshaft.omega + m.crankshaft.accel * dt } }
  let m := { m with crankshaft := { m.crankshaft with
    omega := m.crankshaft.omega - m.crankshaft.omega * lit 10.0 * dt } }
  let m := { m with crankshaft := { m.crankshaft with
    angle := m.crankshaft.angle + m.crankshaft.omega * dt } }
  let m := if isnan m.crankshaft.omega then
      { m with crankshaft := { m.crankshaft with omega := lit 0 } }
    else m
  let m := if isnan m.crankshaft.angle then
      { m with crankshaft := { m.crankshaft with angle := lit 0 } }
    else m
  m

/-- The value held by `shaft->omega` after the first four statements of
`updShaft` (torque, acceleration, integration, damping; main.c 148-151), that
is, the value the first `isnan` test of `updShaft` examines. -/
def dampedOmega (m : Sim α) (extraTorque dt : α) : α :=
  let torque := TcsFromFp m.piston_1.nForce m.crankshaft.angle m.piston_1.rodLength
    m.crankshaft.radius + extraTorque
  let accel := torque / m.crankshaft.inertia
  let omega := m.crankshaft.omega + accel * dt
  omega - omega * lit 10.0 * dt

/-! ## The frame update of `main` -/

/-- The physics statements of one iteration of the `while` loop of `main`
(main.c 281-284); `inputx` and `inputy` are the two `int` globals set by
`control`, `dt` is the frame time. -/
def tick (m : Sim α) (inputx inputy : ℤ) (dt : α) : Sim α :=
  let m := { m with head_1 := { m.head_1 with
    exhaustDisplacement := lit 0.01 * lit (inputy : ℚ) } }
  let m := updPiston m
  let m := updCylinder m
  let m := updShaft m (lit 100.0 * lit (inputx : ℚ)) dt
  m

/-- The state after `k` successive calls of `updShaft` with the same extra
torque and time step. -/
def shaftSteps (m : Sim α) (extraTorque dt : α) : ℕ → Sim α
  | 0 => m
  | k + 1 => updShaft (shaftSteps m extraTorque dt k) extraTorque dt

/-- The three values `control` can leave in `inputx` and in `inputy`
(main.c 186-205). -/
def isControl (i : ℤ) : Prop := i = -1 ∨ i = 0 ∨ i = 1

/-- One frame's inputs: `inputx`, `inputy` and the frame time. -/
structure Frame (α : Type) where
  inputx : ℤ
  inputy : ℤ
  dt : α

/-- A run of the `while` loop of `main`: one `tick` per frame, in order. -/
def run (m : Sim α) : List (Frame α) → Sim α
  | [] => m
  | f :: fs => run (tick m f.inputx f.inputy f.dt) fs

/-- The initial values of the four objects in `main` (main.c 214-256); the
designated initialiser of `piston_1` leaves `nForce` out, so it is zero. -/
def init : Sim α where
  crankshaft :=
    { x := lit 600, y := lit 600, angle := lit 0.0, radius := lit 0.045, inertia := lit 0.09,
      omega := lit 0.0, accel := lit 0.0, Mu := lit 0.01, torque := lit 0.0 }
  cyl_1 :=
    { bore := lit 0.084, stroke := lit 0.09, pressure := lit 3000000.0, apressure := lit 101325.0 }
  head_1 :=
    { intakePressure := lit 101325.0, headVolume := lit 0.00084, exhaustDisplacement := lit 0.01,
      intakeDisplacement := lit 0.0, intakeVRadius := lit 0.0165, intakeSRadius := lit 0.015,
      exhaustVRadius := lit 0.0145, exhaustSRadius := lit 0.0135 }
  piston_1 :=
    { rodLength := lit 0.14435, position := lit 0.0, velocity := lit 0.0, area := lit 0.0,
      inForce := lit 0.0, outForce := lit 0.0, nForce := lit 0 }

end Program

/-! ## Interpretation in the reals extended with the IEEE special values -/

/-- A `double` up to rounding: a real number, `+∞`, `-∞` or NaN. -/
inductive Dbl : Type
  | fin (x : ℝ)
  | pinf
  | ninf
  | nan

namespace Dbl

/-- Neither infinite nor NaN. -/
def isFinite : Dbl → Prop
  | fin _ => True
  | _ => False

/-- Unary minus. -/
noncomputable def neg : Dbl → Dbl
  | fin a => fin (-a)
  | pinf => ninf
  | ninf => pinf
  | nan => nan

/-- Addition: `∞ + (-∞)` is NaN. -/
noncomputable def add : Dbl → Dbl → Dbl
  | fin a, fin b => fin (a + b)
  | fin _, pinf => pinf
  | fin _, ninf => ninf
  | pinf, fin _ => pinf
  | pinf, pinf => pinf
  | pinf, ninf => nan
  | ninf, fin _ => ninf
  | ninf, ninf => ninf
  | ninf, pinf => nan
  | nan, _ => nan
  | _, nan => nan

/-- The infinity with the sign of `a`, NaN for `a = 0`: the product of an
infinity and the finite number `a`. -/
noncomputable def infTimes (a : ℝ) (positive : Bool) : Dbl :=
  if a = 0 then nan
  else if 0 < a then (if positive then pinf else ninf)
  else (if positive then ninf else pinf)

/-- Multiplication: `0 * ∞` is NaN. -/
noncomputable def mul : Dbl → Dbl → Dbl
  | fin a, fin b => fin (a * b)
  | fin a, pinf => infTimes a true
  | fin a, ninf => infTimes a false
  | pinf, fin b => infTimes b true
  | ninf, fin b => infTimes b false
  | pinf, pinf => pinf
  | pinf, ninf => ninf
  | ninf, pinf => ninf
  | ninf, ninf => pinf
  | nan, _ => nan
  | _, nan => nan

/-- Division: `0 / 0` and `∞ / ∞` are NaN, a nonzero number over zero is an
infinity, a number over an infinity is zero. -/
noncomputable def div : Dbl → Dbl → Dbl
  | fin a, fin b =>
    if b = 0 then (if a = 0 then nan else if 0 < a then pinf else ninf) else fin (a / b)
  | fin _, pinf => fin 0
  | fin _, ninf => fin 0
  | pinf, fin b => if 0 ≤ b then pinf else ninf
  | ninf, fin b => if 0 ≤ b then ninf else pinf
  | pinf, pinf => nan
  | pinf, ninf => nan
  | ninf, pinf => nan
  | ninf, ninf => nan
  | nan, _ => nan
  | _, nan => nan

/-- Square root: NaN on negative numbers and on `-∞`. -/
noncomputable def sqrt : Dbl → Dbl
  | fin a => if a < 0 then nan else fin (Real.sqrt a)
  | pinf => pinf
  | ninf => nan
  | nan => nan

/-- Sine: NaN on the infinities. -/
noncomputable def sin : Dbl → Dbl
  | fin a => fin (Real.sin a)
  | _ => nan

/-- Cosine: NaN on the infinities. -/
noncomputable def cos : Dbl → Dbl
  | fin a => fin (Real.cos a)
  | _ => nan

/-- The comparison `a > b`: false as soon as one side is NaN. -/
noncomputable def gt : Dbl → Dbl → Bool
  | fin a, fin b => decide (b < a)
  | pinf, fin _ => true
  | pinf, ninf => true
  | fin _, ninf => true
  | _, _ => false

/-- The macro `isnan`. -/
def isnan : Dbl → Bool
  | nan => true
  | _ => false

/-- The comparison `a >= b`: false as soon as one side is NaN. -/
noncomputable def ge : Dbl → Dbl → Bool
  | fin a, fin b => decide (b ≤ a)
  | pinf, fin _ => true
  | pinf, ninf => true
  | pinf, pinf => true
  | fin _, ninf => true
  | ninf, ninf => true
  | _, _ => false

noncomputable instance : Add Dbl := ⟨add⟩
noncomputable instance : Neg Dbl := ⟨neg⟩
noncomputable instance : Sub Dbl := ⟨fun a b => add a (neg b)⟩
noncomputable instance : Mul Dbl := ⟨mul⟩
noncomputable instance : Div Dbl := ⟨div⟩

end Dbl

/-- Extended real arithmetic: `double` read as `Dbl`. -/
noncomputable instance instDoubleOpsDbl : DoubleOps Dbl where
  lit q := Dbl.fin (q : ℝ)
  M_PI := Dbl.fin Real.pi
  sin := Dbl.sin
  cos := Dbl.cos
  sqrt := Dbl.sqrt
  gt := Dbl.gt
  isnan := Dbl.isnan

/-! ## States used as concrete inputs -/

/-- The state of `main` at start-up, with the shaft turning at `1 rad/s`. -/
noncomputable def spinning : Sim Dbl :=
  { (init : Sim Dbl) with
    crankshaft := { (init : Sim Dbl).crankshaft with omega := DoubleOps.lit 1 } }

/-- The state of `main` at start-up, with the shaft turned to `M_PI / 2`. -/
noncomputable def quarterTurn : Sim Dbl :=
  { (init : Sim Dbl) with
    crankshaft := { (init : Sim Dbl).crankshaft with
      angle := DoubleOps.M_PI / DoubleOps.lit 2 } }

/-- The start-up state of `main` with the exhaust valve given the radii that
`main` configures for the intake valve (`0.0165` and `0.015`), the lift at `0`
and a piston of area `0.0055` at rest. -/
noncomputable def wideValve : Sim Dbl :=
  { (init : Sim Dbl) with
    head_1 := { (init : Sim Dbl).head_1 with
      exhaustDisplacement := DoubleOps.lit 0
      exhaustVRadius := DoubleOps.lit 0.0165
      exhaustSRadius := DoubleOps.lit 0.015 }
    piston_1 := { (init : Sim Dbl).piston_1 with area := DoubleOps.lit 0.0055 } }

/-- The start-up state of `main` with the lift at `0` and a piston of area
`0.0055` at rest. -/
noncomputable def closedValve : Sim Dbl :=
  { (init : Sim Dbl) with
    head_1 := { (init : Sim Dbl).head_1 with exhaustDisplacement := DoubleOps.lit 0 }
    piston_1 := { (init : Sim Dbl).piston_1 with area := DoubleOps.lit 0.0055 } }

/-- The start-up state of `main` with the speed forced to `+∞` and the angle
forced to NaN. -/
noncomputable def nonFinite : Sim Dbl :=
  { (init : Sim Dbl) with
    crankshaft := { (init : Sim Dbl).crankshaft with omega := Dbl.pinf, angle := Dbl.nan } }

/-- The start-up state of `main` with the rod as long as the crank radius
(`0.045`); the shaft angle is `0`. -/
noncomputable def rodEqualsCrank : Sim Dbl :=
  { (init : Sim Dbl) with
    piston_1 := { (init : Sim Dbl).piston_1 with rodLength := DoubleOps.lit 0.045 } }

/-- Every field of a state read as a finite `double`. -/
noncomputable def Sim.ofReal (m : Sim ℝ) : Sim Dbl where
  crankshaft :=
    { x := Dbl.fin m.crankshaft.x, y := Dbl.fin m.crankshaft.y,
      angle := Dbl.fin m.crankshaft.angle, radius := Dbl.fin m.crankshaft.radius,
      inertia := Dbl.fin m.crankshaft.inertia, omega := Dbl.fin m.crankshaft.omega,
      accel := Dbl.fin m.crankshaft.accel, torque := Dbl.fin m.crankshaft.torque,
      Mu := Dbl.fin m.crankshaft.Mu }
  cyl_1 :=
    { bore := Dbl.fin m.cyl_1.bore, stroke := Dbl.fin m.cyl_1.stroke,
      pressure := Dbl.fin m.cyl_1.pressure, apressure := Dbl.fin m.cyl_1.apressure }
  head_1 :=
    { intakePressure := Dbl.fin m.head_1.intakePressure,
      headVolume := Dbl.fin m.head_1.headVolume,
      exhaustDisplacement := Dbl.fin m.head_1.exhaustDisplacement,
      intakeDisplacement := Dbl.fin m.head_1.intakeDisplacement,
      intakeVRadius := Dbl.fin m.head_1.intakeVRadius,
      intakeSRadius := Dbl.fin m.head_1.intakeSRadius,
      exhaustVRadius := Dbl.fin m.head_1.exhaustVRadius,
      exhaustSRadius := Dbl.fin m.head_1.exhaustSRadius }
  piston_1 :=
    { rodLength := Dbl.fin m.piston_1.rodLength, position := Dbl.fin m.piston_1.position,
      velocity := Dbl.fin m.piston_1.velocity, area := Dbl.fin m.piston_1.area,
      inForce := Dbl.fin m.piston_1.inForce, outForce := Dbl.fin m.piston_1.outForce,
      nForce := Dbl.fin m.piston_1.nForce }

/-- The start-up values of `main` as real numbers, with the piston moving at
`1000 m/s`; the piston area is `0`, as it is before the first `updPiston`. -/
def fastPiston : Sim ℝ where
  crankshaft :=
    { x := 600, y := 600, angle := 0, radius := 0.045, inertia := 0.09, omega := 0,
      accel := 0, Mu := 0.01, torque := 0 }
  cyl_1 := { bore := 0.084, stroke := 0.09, pressure := 3000000, apressure := 101325 }
  head_1 :=
    { intakePressure := 101325, headVolume := 0.00084, exhaustDisplacement := 0.01,
      intakeDisplacement := 0, intakeVRadius := 0.0165, intakeSRadius := 0.015,
      exhaustVRadius := 0.0145, exhaustSRadius := 0.0135 }
  piston_1 :=
    { rodLength := 0.14435, position := 0, velocity := 1000, area := 0, inForce := 0,
      outForce := 0, nForce := 0 }

/-- The state `m` with the shaft turned to the finite angle `t`. -/
noncomputable def withAngle (m : Sim Dbl) (t : ℝ) : Sim Dbl :=
  { m with crankshaft := { m.crankshaft with angle := Dbl.fin t } }

/-! ## Arithmetic of finite values -/

namespace Dbl

@[simp]
theorem fin_add (a b : ℝ) : fin a + fin b = fin (a + b) := rfl

@[simp]
theorem neg_fin (a : ℝ) : -fin a = fin (-a) := rfl

@[simp]
theorem fin_sub (a b : ℝ) : fin a - fin b = fin (a - b) := by
  show add (fin a) (neg (fin b)) = fin (a - b)
  simp [add, neg, sub_eq_add_neg]

@[simp]
theorem fin_mul (a b : ℝ) : fin a * fin b = fin (a * b) := rfl

theorem fin_div (a : ℝ) {b : ℝ} (hb : b ≠ 0) : fin a / fin b = fin (a / b) := by
  show div (fin a) (fin b) = fin (a / b)
  simp [div, hb]

theorem sqrt_fin {a : ℝ} (ha : 0 ≤ a) : DoubleOps.sqrt (fin a) = fin (Real.sqrt a) := by
  show sqrt (fin a) = fin (Real.sqrt a)
  simp [sqrt, not_lt.mpr ha]

@[simp]
theorem sin_fin (a : ℝ) : DoubleOps.sin (fin a) = fin (Real.sin a) := rfl

@[simp]
theorem cos_fin (a : ℝ) : DoubleOps.cos (fin a) = fin (Real.cos a) := rfl

@[simp]
theorem lit_eq (q : ℚ) : (DoubleOps.lit q : Dbl) = fin (q : ℝ) := rfl

@[simp]
theorem M_PI_eq : (DoubleOps.M_PI : Dbl) = fin Real.pi := rfl

@[simp]
theorem gt_fin (a b : ℝ) : DoubleOps.gt (fin a) (fin b) = decide (b < a) := rfl

@[simp]
theorem isnan_fin (a : ℝ) : DoubleOps.isnan (fin a) = false := rfl

@[simp]
theorem isnan_nan : DoubleOps.isnan nan = true := rfl

theorem fin_injective {a b : ℝ} (h : fin a = fin b) : a = b := by
  cases h; rfl

/-! ### Propagation of the special values -/

theorem nan_add (x : Dbl) : nan + x = nan := by
  cases x <;> rfl

theorem add_nan (x : Dbl) : x + nan = nan := by
  cases x <;> rfl

theorem nan_sub (x : Dbl) : nan - x = nan := by
  cases x <;> rfl

theorem nan_mul (x : Dbl) : nan * x = nan := by
  cases x <;> rfl

theorem mul_nan (x : Dbl) : x * nan = nan := by
  cases x <;> rfl

theorem nan_div (x : Dbl) : nan / x = nan := by
  cases x <;> rfl

theorem cos_of_not_isFinite {x : Dbl} (hx : ¬ x.isFinite) : DoubleOps.cos x = nan := by
  cases x with
  | fin a => exact absurd trivial hx
  | pinf => rfl
  | ninf => rfl
  | nan => rfl

theorem add_not_isFinite {x : Dbl} (hx : ¬ x.isFinite) (y : Dbl) : ¬ (x + y).isFinite := by
  cases x with
  | fin a => exact absurd trivial hx
  | pinf => cases y <;> exact fun h => h
  | ninf => cases y <;> exact fun h => h
  | nan => cases y <;> exact fun h => h

theorem neg_mul_neg_self (x : Dbl) : -x * -x = x * x := by
  cases x with
  | fin a =>
    show fin (-a * -a) = fin (a * a)
    rw [neg_mul_neg]
  | pinf => rfl
  | ninf => rfl
  | nan => rfl

theorem eq_nan_of_isnan {x : Dbl} (h : DoubleOps.isnan x = true) : x = nan := by
  cases x with
  | fin a => exact absurd h (by simp)
  | pinf => exact absurd h (by decide)
  | ninf => exact absurd h (by decide)
  | nan => rfl

theorem div_nan (x : Dbl) : x / nan = nan := by
  cases x <;> rfl

theorem sub_nan (x : Dbl) : x - nan = nan := by
  cases x <;> rfl

theorem sqrt_fin_neg {a : ℝ} (ha : a < 0) : DoubleOps.sqrt (fin a) = nan := by
  show sqrt (fin a) = nan
  simp [sqrt, ha]

theorem add_not_isFinite_right (x : Dbl) {y : Dbl} (hy : ¬ y.isFinite) :
    ¬ (x + y).isFinite := by
  cases y with
  | fin a => exact absurd trivial hy
  | pinf => cases x <;> exact fun h => h
  | ninf => cases x <;> exact fun h => h
  | nan => cases x <;> exact fun h => h

theorem mul_not_isFinite_right (x : Dbl) {y : Dbl} (hy : ¬ y.isFinite) :
    ¬ (x * y).isFinite := by
  have hinf : ∀ (a : ℝ) (b : Bool), ¬ (infTimes a b).isFinite := by
    intro a b
    unfold infTimes
    split_ifs <;> exact fun h => h
  cases y with
  | fin a => exact absurd trivial hy
  | pinf =>
    cases x with
    | fin a => exact hinf a true
    | pinf => exact fun h => h
    | ninf => exact fun h => h
    | nan => exact fun h => h
  | ninf =>
    cases x with
    | fin a => exact hinf a false
    | pinf => exact fun h => h
    | ninf => exact fun h => h
    | nan => exact fun h => h
  | nan => cases x <;> exact fun h => h

theorem fin_div_zero_not_isFinite (a : ℝ) : ¬ (fin a / fin 0).isFinite := by
  show ¬ (div (fin a) (fin 0)).isFinite
  simp only [div, if_true]
  split_ifs <;> exact fun h => h

/-- The damping statement `x -= x * 10.0 * dt` turns every non-finite `x` into
NaN when `dt >= 0`: the product is NaN for `dt = 0` and the infinity of the
same sign as `x` otherwise. -/
theorem damp_not_isFinite {x : Dbl} (hx : ¬ x.isFinite) {dt : Dbl}
    (hdt : ge dt (fin 0) = true) : x - x * DoubleOps.lit 10.0 * dt = nan := by
  have h10 : (((10.0 : ℚ) : ℝ)) = 10 := by norm_num
  rw [lit_eq, h10]
  show add x (neg (mul (mul x (fin 10)) dt)) = nan
  cases dt with
  | fin d =>
    have hd : 0 ≤ d := by simpa [ge] using hdt
    rcases hd.eq_or_lt with h0 | h0
    · subst h0
      cases x with
      | fin a => exact absurd trivial hx
      | pinf => simp [mul, infTimes, neg, add]
      | ninf => simp [mul, infTimes, neg, add]
      | nan => simp [mul, neg, add]
    · cases x with
      | fin a => exact absurd trivial hx
      | pinf => simp [mul, infTimes, neg, add, h0, h0.ne']
      | ninf => simp [mul, infTimes, neg, add, h0, h0.ne']
      | nan => simp [mul, neg, add]
  | pinf =>
    cases x with
    | fin a => exact absurd trivial hx
    | pinf => simp [mul, infTimes, neg, add]
    | ninf => simp [mul, infTimes, neg, add]
    | nan => simp [mul, neg, add]
  | ninf => simp [ge] at hdt
  | nan => simp [ge] at hdt

end Dbl

/-! ## Piston kinematics -/

/-- The argument of the square root in the position formula is nonnegative when
the crank offset is shorter than the rod. -/
theorem rod_sq_sub_nonneg {r L s : ℝ} (h : |r * s| < L) : 0 ≤ L * L - r * r * s * s := by
  have h1 := abs_lt.mp h
  nlinarith [abs_nonneg (r * s)]

/-- Position written by `updPiston` on finite inputs with a real square root. -/
theorem updPiston_position_fin (m : Sim Dbl) (θ r L : ℝ)
    (hθ : m.crankshaft.angle = Dbl.fin θ) (hr : m.crankshaft.radius = Dbl.fin r)
    (hL : m.piston_1.rodLength = Dbl.fin L)
    (h0 : 0 ≤ L * L - r * r * Real.sin (θ + Real.pi / 2) * Real.sin (θ + Real.pi / 2)) :
    (updPiston m).piston_1.position
      = Dbl.fin (r * Real.cos (θ + Real.pi / 2)
          + Real.sqrt (L ^ 2 - r ^ 2 * Real.sin (θ + Real.pi / 2) ^ 2)) := by
  simp [updPiston, hθ, hr, hL, Dbl.fin_div, Dbl.sqrt_fin h0]
  ring_nf

/-- Velocity written by `updPiston` on finite inputs with a nonzero crank
radius and a positive square-root argument: the second term is the sine of
`2 * θ + π/2`, as in the source text. -/
theorem updPiston_velocity_fin (m : Sim Dbl) (θ ω r L : ℝ)
    (hθ : m.crankshaft.angle = Dbl.fin θ) (hω : m.crankshaft.omega = Dbl.fin ω)
    (hr : m.crankshaft.radius = Dbl.fin r) (hL : m.piston_1.rodLength = Dbl.fin L)
    (hr0 : r ≠ 0)
    (hpos : 0 < L / r * (L / r) - Real.sin (θ + Real.pi / 2) * Real.sin (θ + Real.pi / 2)) :
    (updPiston m).piston_1.velocity
      = Dbl.fin (-ω * r * (Real.sin (θ + Real.pi / 2)
          + Real.sin (2 * θ + Real.pi / 2)
            / (2 * Real.sqrt ((L / r) ^ 2 - Real.sin (θ + Real.pi / 2) ^ 2)))) := by
  have hs : Real.sqrt (L / r * (L / r)
      - Real.sin (θ + Real.pi / 2) * Real.sin (θ + Real.pi / 2)) ≠ 0 :=
    (Real.sqrt_pos.mpr hpos).ne'
  have h2 : (2 : ℝ) * Real.sqrt (L / r * (L / r)
      - Real.sin (θ + Real.pi / 2) * Real.sin (θ + Real.pi / 2)) ≠ 0 :=
    mul_ne_zero two_ne_zero hs
  simp only [updPiston, hθ, hω, hr, hL, Dbl.lit_eq, Dbl.M_PI_eq, Rat.cast_ofNat, Dbl.fin_add,
    Dbl.fin_mul, Dbl.fin_sub, Dbl.neg_fin, Dbl.sin_fin, Dbl.cos_fin,
    Dbl.fin_div _ (two_ne_zero : (2 : ℝ) ≠ 0), Dbl.fin_div _ hr0, Dbl.sqrt_fin hpos.le,
    Dbl.fin_div _ h2]
  congr 1
  ring_nf

/-- The derivative in the crank angle of the position formula of `updPiston`,
for a rod longer than the crank: it is the velocity formula with the sine of
`2 * (θ + π/2)`, per unit of angular velocity. -/
theorem crank_slider_rate (r L θ : ℝ) (hr : 0 < r) (hL : r < L) :
    HasDerivAt (fun t : ℝ => r * Real.cos (t + Real.pi / 2)
        + Real.sqrt (L ^ 2 - r ^ 2 * Real.sin (t + Real.pi / 2) ^ 2))
      (-r * (Real.sin (θ + Real.pi / 2)
        + Real.sin (2 * (θ + Real.pi / 2))
          / (2 * Real.sqrt ((L / r) ^ 2 - Real.sin (θ + Real.pi / 2) ^ 2)))) θ := by
  have hshift : HasDerivAt (fun t : ℝ => t + Real.pi / 2) 1 θ :=
    (hasDerivAt_id θ).add_const (Real.pi / 2)
  have hcos : HasDerivAt (fun t : ℝ => Real.cos (t + Real.pi / 2))
      (-Real.sin (θ + Real.pi / 2) * 1) θ :=
    (Real.hasDerivAt_cos (θ + Real.pi / 2)).comp θ hshift
  have hsin : HasDerivAt (fun t : ℝ => Real.sin (t + Real.pi / 2))
      (Real.cos (θ + Real.pi / 2) * 1) θ :=
    (Real.hasDerivAt_sin (θ + Real.pi / 2)).comp θ hshift
  have hs1 : Real.sin (θ + Real.pi / 2) ^ 2 ≤ 1 := Real.sin_sq_le_one _
  have hupos : 0 < L ^ 2 - r ^ 2 * Real.sin (θ + Real.pi / 2) ^ 2 := by
    have : r ^ 2 * Real.sin (θ + Real.pi / 2) ^ 2 ≤ r ^ 2 * 1 :=
      mul_le_mul_of_nonneg_left hs1 (by positivity)
    nlinarith
  have hu : HasDerivAt (fun t : ℝ => L ^ 2 - r ^ 2 * Real.sin (t + Real.pi / 2) ^ 2)
      (-(r ^ 2 * (2 * Real.sin (θ + Real.pi / 2) ^ 1 * (Real.cos (θ + Real.pi / 2) * 1)))) θ := by
    have h1 := ((hsin.pow 2).const_mul (r ^ 2)).const_sub (L ^ 2)
    simpa using h1
  have hall := (hcos.const_mul r).add (hu.sqrt hupos.ne')
  have hroot : Real.sqrt ((L / r) ^ 2 - Real.sin (θ + Real.pi / 2) ^ 2)
      = Real.sqrt (L ^ 2 - r ^ 2 * Real.sin (θ + Real.pi / 2) ^ 2) / r := by
    have h2 : (L / r) ^ 2 - Real.sin (θ + Real.pi / 2) ^ 2
        = (L ^ 2 - r ^ 2 * Real.sin (θ + Real.pi / 2) ^ 2) / r ^ 2 := by
      field_simp
    rw [h2, Real.sqrt_div hupos.le, Real.sqrt_sq hr.le]
  have alg : ∀ s c w : ℝ, w ≠ 0 →
      -r * (s + 2 * s * c / (2 * (w / r)))
        = r * (-s * 1) + -(r ^ 2 * (2 * s ^ 1 * (c * 1))) / (2 * w) := by
    intro s c w hw
    have hrne : r ≠ 0 := hr.ne'
    field_simp
    ring
  convert hall using 1
  rw [hroot, Real.sin_two_mul]
  exact alg _ _ _ (Real.sqrt_pos.mpr hupos).ne'

/-- C2 (defect): at angle `0`, angular velocity `1`, radius `0.045` and rod
length `0.14435` the code writes the velocity
`-0.045 * (1 + 1 / (2 * sqrt (n^2 - 1)))` with `n = 0.14435 / 0.045`, since
`sin (2 * 0 + π/2) = 1`; the claimed formula, with `sin (2 * (0 + π/2)) = 0`,
gives `-0.045`, a different value; and `-0.045` is the rate of change, per
radian turned at angle `0`, of the position that `updPiston` itself
computes. -/
theorem C2_updPiston_velocity_differs :
    (updPiston spinning).piston_1.velocity
      = Dbl.fin (-(0.045 : ℝ) * (1 + 1 / (2 * Real.sqrt ((0.14435 / 0.045) ^ 2 - 1))))
    ∧ -(1 : ℝ) * 0.045 * (Real.sin (0 + Real.pi / 2)
          + Real.sin (2 * (0 + Real.pi / 2))
            / (2 * Real.sqrt ((0.14435 / 0.045) ^ 2 - Real.sin (0 + Real.pi / 2) ^ 2)))
        = -0.045
    ∧ -(0.045 : ℝ) * (1 + 1 / (2 * Real.sqrt ((0.14435 / 0.045) ^ 2 - 1))) ≠ -0.045
    ∧ (∃ p : ℝ → ℝ,
        (∀ t : ℝ, (updPiston (withAngle spinning t)).piston_1.position = Dbl.fin (p t))
        ∧ HasDerivAt p (-0.045) 0) := by
  have hpos : (0 : ℝ) < (0.14435 / 0.045) ^ 2 - 1 := by norm_num
  have hs : 0 < Real.sqrt ((0.14435 / 0.045) ^ 2 - 1) := Real.sqrt_pos.mpr hpos
  have hclaim : -(1 : ℝ) * 0.045 * (Real.sin (0 + Real.pi / 2)
          + Real.sin (2 * (0 + Real.pi / 2))
            / (2 * Real.sqrt ((0.14435 / 0.045) ^ 2 - Real.sin (0 + Real.pi / 2) ^ 2)))
        = -0.045 := by
    have h2 : 2 * (0 + Real.pi / 2) = Real.pi := by ring
    rw [h2, Real.sin_pi, zero_add, Real.sin_pi_div_two]
    norm_num
  refine ⟨?_, hclaim, ?_, ?_⟩
  · have h := updPiston_velocity_fin spinning 0 1 0.045 0.14435
      (by simp [spinning, init]; norm_num) (by simp [spinning]) (by simp [spinning, init])
      (by simp [spinning, init]) (by norm_num)
      (by rw [zero_add, Real.sin_pi_div_two]; norm_num)
    rw [h]
    congr 1
    rw [mul_zero, zero_add, Real.sin_pi_div_two]
    norm_num
  · intro h
    have h3 : (0 : ℝ) < 1 / (2 * Real.sqrt ((0.14435 / 0.045) ^ 2 - 1)) := by positivity
    linarith
  · refine ⟨fun t => 0.045 * Real.cos (t + Real.pi / 2)
        + Real.sqrt (0.14435 ^ 2 - 0.045 ^ 2 * Real.sin (t + Real.pi / 2) ^ 2), ?_, ?_⟩
    · intro t
      refine updPiston_position_fin (withAngle spinning t) t 0.045 0.14435 rfl
        (by simp [withAngle, spinning, init]) (by simp [withAngle, spinning, init]) ?_
      apply rod_sq_sub_nonneg
      have h1 := Real.abs_sin_le_one (t + Real.pi / 2)
      rw [abs_mul, abs_of_pos (by norm_num : (0 : ℝ) < 0.045)]
      nlinarith [abs_nonneg (Real.sin (t + Real.pi / 2))]
    · exact (crank_slider_rate 0.045 0.14435 0 (by norm_num) (by norm_num)).congr_deriv
        (by linarith [hclaim])

/-- The crank-slider position `r * c + sqrt (L^2 - r^2 * s^2)` for a point
`(c, s)` of the unit circle lies between `L - r` and `L + r` when
`0 < r ≤ L`. -/
theorem crank_position_bounds {r L c s : ℝ} (hr0 : 0 < r) (hrL : r ≤ L)
    (hcs : c ^ 2 + s ^ 2 = 1) :
    L - r ≤ r * c + Real.sqrt (L ^ 2 - r ^ 2 * s ^ 2)
    ∧ r * c + Real.sqrt (L ^ 2 - r ^ 2 * s ^ 2) ≤ L + r := by
  have hc1 : c ≤ 1 := by nlinarith [sq_nonneg s, sq_nonneg (c - 1)]
  have hc2 : -1 ≤ c := by nlinarith [sq_nonneg s, sq_nonneg (c + 1)]
  have hx : L ^ 2 - r ^ 2 * s ^ 2 = L ^ 2 - r ^ 2 + r ^ 2 * c ^ 2 := by
    have : s ^ 2 = 1 - c ^ 2 := by linarith
    rw [this]
    ring
  constructor
  · have h1 : L - r - r * c ≤ Real.sqrt (L ^ 2 - r ^ 2 * s ^ 2) := by
      apply Real.le_sqrt_of_sq_le
      rw [hx]
      nlinarith [mul_nonneg (mul_nonneg hr0.le (by linarith : (0 : ℝ) ≤ 1 + c))
        (by linarith : (0 : ℝ) ≤ L - r)]
    linarith
  · have h1 : Real.sqrt (L ^ 2 - r ^ 2 * s ^ 2) ≤ L + r - r * c := by
      rw [Real.sqrt_le_iff]
      constructor
      · nlinarith [mul_nonneg hr0.le (by linarith : (0 : ℝ) ≤ 1 - c)]
      · rw [hx]
        nlinarith [mul_nonneg (mul_nonneg hr0.le (by linarith : (0 : ℝ) ≤ 1 - c))
          (by linarith : (0 : ℝ) ≤ L + r)]
    linarith

/-- The value of `TcsFromFp` on finite arguments with a nonzero crank radius and
a positive square-root argument. -/
theorem TcsFromFp_fin (F θ L R : ℝ) (hR0 : R ≠ 0)
    (hpos : 0 < L / R * (L / R) - Real.sin θ * Real.sin θ) :
    TcsFromFp (Dbl.fin F) (Dbl.fin θ) (Dbl.fin L) (Dbl.fin R)
      = Dbl.fin (F * R * (Real.cos θ
          + Real.sin (2 * θ) / (2 * Real.sqrt ((L / R) ^ 2 - Real.sin θ ^ 2)))) := by
  have h2 : (2 : ℝ) * Real.sqrt (L / R * (L / R) - Real.sin θ * Real.sin θ) ≠ 0 :=
    mul_ne_zero two_ne_zero (Real.sqrt_pos.mpr hpos).ne'
  simp only [TcsFromFp, Dbl.lit_eq, Rat.cast_ofNat, Dbl.fin_add, Dbl.fin_mul, Dbl.fin_sub,
    Dbl.sin_fin, Dbl.cos_fin, Dbl.fin_div _ hR0, Dbl.sqrt_fin hpos.le, Dbl.fin_div _ h2]
  congr 1
  ring_nf

/-- The four fields written by `updShaft`, in terms of the torque it computes,
when that torque, the inertia, the old speed and angle and `dt` are finite and
the inertia is not zero. -/
theorem updShaft_of_torque (m : Sim Dbl) (extraTorque : Dbl) (τ θ I ω d : ℝ)
    (hτ : TcsFromFp m.piston_1.nForce m.crankshaft.angle m.piston_1.rodLength
      m.crankshaft.radius + extraTorque = Dbl.fin τ)
    (hθ : m.crankshaft.angle = Dbl.fin θ) (hI : m.crankshaft.inertia = Dbl.fin I)
    (hω : m.crankshaft.omega = Dbl.fin ω) (hI0 : I ≠ 0) :
    (updShaft m extraTorque (Dbl.fin d)).crankshaft.torque = Dbl.fin τ
    ∧ (updShaft m extraTorque (Dbl.fin d)).crankshaft.accel = Dbl.fin (τ / I)
    ∧ (updShaft m extraTorque (Dbl.fin d)).crankshaft.omega
        = Dbl.fin ((ω + τ / I * d) - (ω + τ / I * d) * 10 * d)
    ∧ (updShaft m extraTorque (Dbl.fin d)).crankshaft.angle
        = Dbl.fin (θ + ((ω + τ / I * d) - (ω + τ / I * d) * 10 * d) * d) := by
  have h10 : (((10.0 : ℚ) : ℝ)) = 10 := by norm_num
  rw [hθ] at hτ
  simp only [updShaft, hτ, hθ, hI, hω, Dbl.lit_eq, h10, Dbl.fin_add, Dbl.fin_mul, Dbl.fin_sub,
    Dbl.fin_div _ hI0, Dbl.isnan_fin, Bool.false_eq_true, if_false, and_self]

/-- The function `updShaft` does not write the piston. -/
theorem updShaft_piston {α : Type} [Add α] [Sub α] [Mul α] [Div α] [Neg α] [DoubleOps α]
    (m : Sim α) (e dt : α) : (updShaft m e dt).piston_1 = m.piston_1 := by
  simp only [updShaft]
  split_ifs <;> rfl

/-- The function `updShaft` does not write the crank radius. -/
theorem updShaft_radius {α : Type} [Add α] [Sub α] [Mul α] [Div α] [Neg α] [DoubleOps α]
    (m : Sim α) (e dt : α) : (updShaft m e dt).crankshaft.radius = m.crankshaft.radius := by
  simp only [updShaft]
  split_ifs <;> rfl

/-- The function `updShaft` does not write the inertia. -/
theorem updShaft_inertia {α : Type} [Add α] [Sub α] [Mul α] [Div α] [Neg α] [DoubleOps α]
    (m : Sim α) (e dt : α) : (updShaft m e dt).crankshaft.inertia = m.crankshaft.inertia := by
  simp only [updShaft]
  split_ifs <;> rfl

/-- A rod longer than the nonzero crank radius keeps the square-root argument
of `TcsFromFp` positive at every angle. -/
theorem rod_ratio_pos {L R : ℝ} (hR0 : R ≠ 0) (hRL : |R| < |L|) (θ : ℝ) :
    0 < L / R * (L / R) - Real.sin θ * Real.sin θ := by
  have h1 : R ^ 2 < L ^ 2 := sq_lt_sq.mpr hRL
  have hR2 : 0 < R ^ 2 := by positivity
  have h2 : 1 < L / R * (L / R) := by
    have h3 : L / R * (L / R) = L ^ 2 / R ^ 2 := by
      field_simp
      ring
    rw [h3, one_lt_div hR2]
    exact h1
  have h4 : Real.sin θ * Real.sin θ ≤ 1 := by
    have := Real.sin_sq_le_one θ
    nlinarith
  linarith

/-- One `updShaft` call with zero net force and zero extra torque multiplies
the speed by `1 - 10 * d` and keeps the angle finite. -/
theorem updShaft_free (m : Sim Dbl) (θ ω I R L d : ℝ)
    (hF : m.piston_1.nForce = Dbl.fin 0) (hθ : m.crankshaft.angle = Dbl.fin θ)
    (hω : m.crankshaft.omega = Dbl.fin ω) (hI : m.crankshaft.inertia = Dbl.fin I)
    (hR : m.crankshaft.radius = Dbl.fin R) (hL : m.piston_1.rodLength = Dbl.fin L)
    (hI0 : I ≠ 0) (hR0 : R ≠ 0) (hRL : |R| < |L|) :
    (updShaft m (Dbl.fin 0) (Dbl.fin d)).crankshaft.omega = Dbl.fin (ω * (1 - 10 * d))
    ∧ (updShaft m (Dbl.fin 0) (Dbl.fin d)).crankshaft.angle
        = Dbl.fin (θ + ω * (1 - 10 * d) * d) := by
  have hτ : TcsFromFp m.piston_1.nForce m.crankshaft.angle m.piston_1.rodLength
      m.crankshaft.radius + Dbl.fin 0 = Dbl.fin 0 := by
    rw [hF, hθ, hL, hR, TcsFromFp_fin 0 θ L R hR0 (rod_ratio_pos hR0 hRL θ), Dbl.fin_add]
    congr 1
    ring
  obtain ⟨_, _, h3, h4⟩ := updShaft_of_torque m (Dbl.fin 0) 0 θ I ω d hτ hθ hI hω hI0
  constructor
  · rw [h3]
    congr 1
    ring
  · rw [h4]
    congr 1
    ring

/-- Closed form of the speed after `k` free `updShaft` calls. -/
theorem shaftSteps_free (m : Sim Dbl) (θ ω I R L d : ℝ)
    (hF : m.piston_1.nForce = Dbl.fin 0) (hθ : m.crankshaft.angle = Dbl.fin θ)
    (hω : m.crankshaft.omega = Dbl.fin ω) (hI : m.crankshaft.inertia = Dbl.fin I)
    (hR : m.crankshaft.radius = Dbl.fin R) (hL : m.piston_1.rodLength = Dbl.fin L)
    (hI0 : I ≠ 0) (hR0 : R ≠ 0) (hRL : |R| < |L|) (k : ℕ) :
    (shaftSteps m (Dbl.fin 0) (Dbl.fin d) k).crankshaft.omega
      = Dbl.fin (ω * (1 - 10 * d) ^ k) := by
  have inv : ∀ k : ℕ,
      (shaftSteps m (Dbl.fin 0) (Dbl.fin d) k).piston_1 = m.piston_1
      ∧ (shaftSteps m (Dbl.fin 0) (Dbl.fin d) k).crankshaft.radius = Dbl.fin R
      ∧ (shaftSteps m (Dbl.fin 0) (Dbl.fin d) k).crankshaft.inertia = Dbl.fin I
      ∧ (∃ θ' : ℝ, (shaftSteps m (Dbl.fin 0) (Dbl.fin d) k).crankshaft.angle = Dbl.fin θ')
      ∧ (shaftSteps m (Dbl.fin 0) (Dbl.fin d) k).crankshaft.omega
          = Dbl.fin (ω * (1 - 10 * d) ^ k) := by
    intro k
    induction k with
    | zero =>
      refine ⟨rfl, hR, hI, ⟨θ, hθ⟩, ?_⟩
      simp only [shaftSteps, hω, pow_zero, mul_one]
    | succ k ih =>
      obtain ⟨hp, hr, hi, ⟨θ', hθ'⟩, ho⟩ := ih
      have step := updShaft_free (shaftSteps m (Dbl.fin 0) (Dbl.fin d) k) θ'
        (ω * (1 - 10 * d) ^ k) I R L d (by rw [hp, hF]) hθ' ho hi hr (by rw [hp, hL])
        hI0 hR0 hRL
      refine ⟨?_, ?_, ?_, ⟨_, step.2⟩, ?_⟩
      · simp only [shaftSteps, updShaft_piston, hp]
      · simp only [shaftSteps, updShaft_radius, hr]
      · simp only [shaftSteps, updShaft_inertia, hi]
      · simp only [shaftSteps]
        rw [step.1]
        congr 1
        ring
  exact (inv k).2.2.2.2

/-- The speed `updShaft` leaves: the integrated and damped speed, reset to `0`
when that is NaN. -/
theorem updShaft_omega {α : Type} [Add α] [Sub α] [Mul α] [Div α] [Neg α] [DoubleOps α]
    (m : Sim α) (e dt : α) :
    (updShaft m e dt).crankshaft.omega
      = if DoubleOps.isnan
            (m.crankshaft.omega
                + (TcsFromFp m.piston_1.nForce m.crankshaft.angle m.piston_1.rodLength
                    m.crankshaft.radius + e) / m.crankshaft.inertia * dt
              - (m.crankshaft.omega
                  + (TcsFromFp m.piston_1.nForce m.crankshaft.angle m.piston_1.rodLength
                      m.crankshaft.radius + e) / m.crankshaft.inertia * dt)
                * DoubleOps.lit 10.0 * dt) then
          DoubleOps.lit 0
        else
          m.crankshaft.omega
              + (TcsFromFp m.piston_1.nForce m.crankshaft.angle m.piston_1.rodLength
                  m.crankshaft.radius + e) / m.crankshaft.inertia * dt
            - (m.crankshaft.omega
                + (TcsFromFp m.piston_1.nForce m.crankshaft.angle m.piston_1.rodLength
                    m.crankshaft.radius + e) / m.crankshaft.inertia * dt)
              * DoubleOps.lit 10.0 * dt := by
  simp only [updShaft]
  split_ifs <;> rfl

/-- The angle `updShaft` leaves: the old angle advanced by the damped speed (as
it is before its NaN reset) times `dt`, reset to `0` when that is NaN. -/
theorem updShaft_angle {α : Type} [Add α] [Sub α] [Mul α] [Div α] [Neg α] [DoubleOps α]
    (m : Sim α) (e dt : α) :
    (updShaft m e dt).crankshaft.angle
      = if DoubleOps.isnan
            (m.crankshaft.angle
              + (m.crankshaft.omega
                  + (TcsFromFp m.piston_1.nForce m.crankshaft.angle m.piston_1.rodLength
                      m.crankshaft.radius + e) / m.crankshaft.inertia * dt
                - (m.crankshaft.omega
                    + (TcsFromFp m.piston_1.nForce m.crankshaft.angle m.piston_1.rodLength
                        m.crankshaft.radius + e) / m.crankshaft.inertia * dt)
                  * DoubleOps.lit 10.0 * dt) * dt) then
          DoubleOps.lit 0
        else
          m.crankshaft.angle
            + (m.crankshaft.omega
                + (TcsFromFp m.piston_1.nForce m.crankshaft.angle m.piston_1.rodLength
                    m.crankshaft.radius + e) / m.crankshaft.inertia * dt
              - (m.crankshaft.omega
                  + (TcsFromFp m.piston_1.nForce m.crankshaft.angle m.piston_1.rodLength
                      m.crankshaft.radius + e) / m.crankshaft.inertia * dt)
                * DoubleOps.lit 10.0 * dt) * dt := by
  simp only [updShaft]
  split_ifs <;> rfl

/-- A non-finite angle makes `TcsFromFp` NaN, whatever the other arguments. -/
theorem TcsFromFp_of_not_isFinite (fp L R : Dbl) {θ : Dbl} (hθ : ¬ θ.isFinite) :
    TcsFromFp fp θ L R = Dbl.nan := by
  simp only [TcsFromFp, Dbl.cos_of_not_isFinite hθ, Dbl.nan_add, Dbl.mul_nan]

/-- C8: for every piston state, extra torque and `dt >= 0`, if `shaft.omega` is
not finite (NaN or an infinity) before `updShaft` then it is exactly `0` after
the call, and if `shaft.angle` is not finite before the call then it is
exactly `0` after the call. -/
theorem C8_updShaft_nan_recovery (m : Sim Dbl) (extraTorque dt : Dbl)
    (hdt : Dbl.ge dt (Dbl.fin 0) = true) :
    (¬ m.crankshaft.omega.isFinite →
        (updShaft m extraTorque dt).crankshaft.omega = Dbl.fin 0)
    ∧ (¬ m.crankshaft.angle.isFinite →
        (updShaft m extraTorque dt).crankshaft.angle = Dbl.fin 0) := by
  constructor
  · intro hω
    rw [updShaft_omega, Dbl.damp_not_isFinite (Dbl.add_not_isFinite hω _) hdt]
    simp
  · intro hθ
    rw [updShaft_angle, TcsFromFp_of_not_isFinite _ _ _ hθ]
    simp [Dbl.nan_add, Dbl.add_nan, Dbl.nan_div, Dbl.nan_mul, Dbl.nan_sub]

/-- C8 at the state `nonFinite` (speed `+∞`, angle NaN), with time step
`0.001`. -/
theorem C8_updShaft_nan_recovery_witness :
    Dbl.ge (Dbl.fin 0.001) (Dbl.fin 0) = true
    ∧ (¬ nonFinite.crankshaft.omega.isFinite →
        (updShaft nonFinite (Dbl.fin 0) (Dbl.fin 0.001)).crankshaft.omega = Dbl.fin 0)
    ∧ (¬ nonFinite.crankshaft.angle.isFinite →
        (updShaft nonFinite (Dbl.fin 0) (Dbl.fin 0.001)).crankshaft.angle = Dbl.fin 0) :=
  ⟨by simp [Dbl.ge]; norm_num,
    C8_updShaft_nan_recovery nonFinite (Dbl.fin 0) (Dbl.fin 0.001)
      (by simp [Dbl.ge]; norm_num)⟩

/-- With zero piston net force and zero extra torque the total torque is zero,
for a rod longer than the nonzero crank radius. -/
theorem free_torque_zero (m : Sim Dbl) (θ R L : ℝ)
    (hF : m.piston_1.nForce = Dbl.fin 0) (hθ : m.crankshaft.angle = Dbl.fin θ)
    (hR : m.crankshaft.radius = Dbl.fin R) (hL : m.piston_1.rodLength = Dbl.fin L)
    (hR0 : R ≠ 0) (hRL : |R| < |L|) :
    TcsFromFp m.piston_1.nForce m.crankshaft.angle m.piston_1.rodLength
      m.crankshaft.radius + Dbl.fin 0 = Dbl.fin 0 := by
  rw [hF, hθ, hL, hR, TcsFromFp_fin 0 θ L R hR0 (rod_ratio_pos hR0 hRL θ), Dbl.fin_add]
  congr 1
  ring

/-- The speed `updShaft` leaves is the damped speed, or `0` when that is
NaN. -/
theorem updShaft_omega_damped {α : Type} [Add α] [Sub α] [Mul α] [Div α] [Neg α]
    [DoubleOps α] (m : Sim α) (e dt : α) :
    (updShaft m e dt).crankshaft.omega
      = if DoubleOps.isnan (dampedOmega m e dt) then DoubleOps.lit 0
        else dampedOmega m e dt := by
  rw [updShaft_omega]
  rfl

/-- The angle `updShaft` leaves is the old angle advanced by the damped speed
times `dt`, or `0` when that is NaN. -/
theorem updShaft_angle_damped {α : Type} [Add α] [Sub α] [Mul α] [Div α] [Neg α]
    [DoubleOps α] (m : Sim α) (e dt : α) :
    (updShaft m e dt).crankshaft.angle
      = if DoubleOps.isnan (m.crankshaft.angle + dampedOmega m e dt * dt) then DoubleOps.lit 0
        else m.crankshaft.angle + dampedOmega m e dt * dt := by
  rw [updShaft_angle]
  rfl

/-- A NaN damped speed makes `updShaft` reset both the speed and the angle. -/
theorem updShaft_reset_both (m : Sim Dbl) (e dt : Dbl)
    (h : dampedOmega m e dt = Dbl.nan) :
    (updShaft m e dt).crankshaft.omega = Dbl.fin 0
    ∧ (updShaft m e dt).crankshaft.angle = Dbl.fin 0 := by
  constructor
  · rw [updShaft_omega_damped, h]
    simp
  · rw [updShaft_angle_damped, h, Dbl.nan_mul, Dbl.add_nan]
    simp

/-- C18: the speed `updShaft` leaves is the damped speed of main.c 148-151, or
`0` when that is NaN; whenever that damped speed is NaN, in particular when
the piston net force or the extra torque is NaN, the angle has been advanced
by `NaN * dt` and `updShaft` returns with both `omega = 0` and `angle = 0`,
whatever the angle was before: from the start-up state of `main` turned to
the finite angle `π/2`, a NaN extra torque leaves the angle `0`. -/
theorem C18_nan_resets_both (m : Sim Dbl) (e dt : Dbl) :
    (updShaft m e dt).crankshaft.omega
      = (if DoubleOps.isnan (dampedOmega m e dt) then DoubleOps.lit 0
          else dampedOmega m e dt)
    ∧ (DoubleOps.isnan (dampedOmega m e dt) = true →
        (updShaft m e dt).crankshaft.omega = Dbl.fin 0
        ∧ (updShaft m e dt).crankshaft.angle = Dbl.fin 0)
    ∧ (m.piston_1.nForce = Dbl.nan →
        DoubleOps.isnan (dampedOmega m e dt) = true
        ∧ (updShaft m e dt).crankshaft.omega = Dbl.fin 0
        ∧ (updShaft m e dt).crankshaft.angle = Dbl.fin 0)
    ∧ (e = Dbl.nan →
        DoubleOps.isnan (dampedOmega m e dt) = true
        ∧ (updShaft m e dt).crankshaft.omega = Dbl.fin 0
        ∧ (updShaft m e dt).crankshaft.angle = Dbl.fin 0)
    ∧ (quarterTurn.crankshaft.angle = Dbl.fin (Real.pi / 2)
        ∧ (updShaft quarterTurn Dbl.nan dt).crankshaft.omega = Dbl.fin 0
        ∧ (updShaft quarterTurn Dbl.nan dt).crankshaft.angle = Dbl.fin 0) := by
  have hF : ∀ (m : Sim Dbl) (e dt : Dbl), m.piston_1.nForce = Dbl.nan →
      dampedOmega m e dt = Dbl.nan := by
    intro m e dt h
    simp only [dampedOmega, TcsFromFp, h, Dbl.nan_mul, Dbl.nan_add, Dbl.nan_div, Dbl.add_nan,
      Dbl.nan_sub]
  have hE : ∀ (m : Sim Dbl) (dt : Dbl), dampedOmega m Dbl.nan dt = Dbl.nan := by
    intro m dt
    simp only [dampedOmega, Dbl.add_nan, Dbl.nan_mul, Dbl.nan_div, Dbl.nan_sub]
  refine ⟨updShaft_omega_damped m e dt, ?_, ?_, ?_, ?_, ?_⟩
  · intro h
    exact updShaft_reset_both m e dt (Dbl.eq_nan_of_isnan h)
  · intro h
    have hd := hF m e dt h
    exact ⟨by rw [hd]; rfl, updShaft_reset_both m e dt hd⟩
  · intro h
    subst h
    have hd := hE m dt
    exact ⟨by rw [hd]; rfl, updShaft_reset_both m Dbl.nan dt hd⟩
  · simp [quarterTurn, Dbl.fin_div]
  · exact updShaft_reset_both quarterTurn Dbl.nan dt (hE quarterTurn dt)

/-! ## Cylinder pressure -/

/-- The value of `FrustumLSA` on finite arguments. -/
theorem FrustumLSA_fin (R r h : ℝ) :
    FrustumLSA (Dbl.fin R) (Dbl.fin r) (Dbl.fin h)
      = Dbl.fin (Real.pi * (R + r) * Real.sqrt ((R - r) ^ 2 + h ^ 2)) := by
  have h0 : 0 ≤ (R - r) * (R - r) + h * h := by nlinarith [sq_nonneg (R - r), sq_nonneg h]
  simp only [FrustumLSA, Dbl.M_PI_eq, Dbl.fin_add, Dbl.fin_mul, Dbl.fin_sub, Dbl.sqrt_fin h0]
  congr 1
  ring_nf

/-- The pressure written by `updCylinder` when the valve geometry is finite:
the branch is decided by comparing the real flow area with `0.0001`. -/
theorem updCylinder_pressure (m : Sim Dbl) (R r h : ℝ)
    (hR : m.head_1.exhaustVRadius = Dbl.fin R) (hr : m.head_1.exhaustSRadius = Dbl.fin r)
    (hh : m.head_1.exhaustDisplacement = Dbl.fin h) :
    (updCylinder m).cyl_1.pressure
      = if 0.0001 < Real.pi * (R + r) * Real.sqrt ((R - r) ^ 2 + h ^ 2) then
          DoubleOps.lit 0.5 * DoubleOps.lit 1.225
            * (m.piston_1.velocity * m.piston_1.area
                  / Dbl.fin (Real.pi * (R + r) * Real.sqrt ((R - r) ^ 2 + h ^ 2))
                * (m.piston_1.velocity * m.piston_1.area
                  / Dbl.fin (Real.pi * (R + r) * Real.sqrt ((R - r) ^ 2 + h ^ 2)))
                - m.piston_1.velocity * m.piston_1.velocity)
            + m.cyl_1.apressure
        else
          m.piston_1.area * m.cyl_1.stroke / DoubleOps.lit 2 * m.cyl_1.apressure
            / (m.piston_1.area
                * (m.cyl_1.stroke + m.piston_1.rodLength - m.piston_1.position)) := by
  have hc : ((0.0001 : ℚ) : ℝ) = 0.0001 := by norm_num
  simp only [updCylinder, hR, hr, hh, FrustumLSA_fin, Dbl.lit_eq, Dbl.gt_fin, hc,
    decide_eq_true_eq]

/-- The open-valve branch of `updCylinder` on finite inputs: the Bernoulli
relation in real arithmetic. -/
theorem updCylinder_open_fin (m : Sim Dbl) (R r h vp ap pa : ℝ)
    (hR : m.head_1.exhaustVRadius = Dbl.fin R) (hr : m.head_1.exhaustSRadius = Dbl.fin r)
    (hh : m.head_1.exhaustDisplacement = Dbl.fin h)
    (hvp : m.piston_1.velocity = Dbl.fin vp) (hap : m.piston_1.area = Dbl.fin ap)
    (hpa : m.cyl_1.apressure = Dbl.fin pa)
    (hav : 0.0001 < Real.pi * (R + r) * Real.sqrt ((R - r) ^ 2 + h ^ 2)) :
    (updCylinder m).cyl_1.pressure
      = Dbl.fin (0.5 * 1.225
          * ((vp * ap / (Real.pi * (R + r) * Real.sqrt ((R - r) ^ 2 + h ^ 2))) ^ 2
              - vp ^ 2) + pa) := by
  have hav0 : 0 < Real.pi * (R + r) * Real.sqrt ((R - r) ^ 2 + h ^ 2) :=
    lt_trans (by norm_num) hav
  have h5 : ((0.5 : ℚ) : ℝ) = 0.5 := by norm_num
  have h1 : ((1.225 : ℚ) : ℝ) = 1.225 := by norm_num
  rw [updCylinder_pressure m R r h hR hr hh, if_pos hav]
  simp only [hvp, hap, hpa, Dbl.lit_eq, h5, h1, Dbl.fin_mul, Dbl.fin_div _ hav0.ne',
    Dbl.fin_sub, Dbl.fin_add]
  congr 1
  ring_nf

/-- C5: with finite valve radius `R`, seat radius `r`, lift `h`, piston velocity
`vp`, area `ap`, position `x`, rod length `L`, stroke `S` and ambient pressure
`pa`, `updCylinder` takes one of two branches decided by
`av = π * (R + r) * sqrt ((R - r)^2 + h^2)`: if `av > 0.0001` the new pressure
is `0.5 * 1.225 * ((vp * ap / av)^2 - vp^2) + pa` and the divisor `av` is
strictly positive; if `av ≤ 0.0001` the new pressure is the quotient of
`vi * pa` by `vc`, with `vi = ap * S / 2` and `vc = ap * (S + L - x)`. -/
theorem C5_updCylinder_branches (m : Sim Dbl) (R r h vp ap x L S pa : ℝ)
    (hR : m.head_1.exhaustVRadius = Dbl.fin R) (hr : m.head_1.exhaustSRadius = Dbl.fin r)
    (hh : m.head_1.exhaustDisplacement = Dbl.fin h)
    (hvp : m.piston_1.velocity = Dbl.fin vp) (hap : m.piston_1.area = Dbl.fin ap)
    (hx : m.piston_1.position = Dbl.fin x) (hL : m.piston_1.rodLength = Dbl.fin L)
    (hS : m.cyl_1.stroke = Dbl.fin S) (hpa : m.cyl_1.apressure = Dbl.fin pa) :
    (0.0001 < Real.pi * (R + r) * Real.sqrt ((R - r) ^ 2 + h ^ 2) →
        0 < Real.pi * (R + r) * Real.sqrt ((R - r) ^ 2 + h ^ 2)
        ∧ (updCylinder m).cyl_1.pressure
          = Dbl.fin (0.5 * 1.225
              * ((vp * ap / (Real.pi * (R + r) * Real.sqrt ((R - r) ^ 2 + h ^ 2))) ^ 2
                  - vp ^ 2) + pa))
    ∧ (Real.pi * (R + r) * Real.sqrt ((R - r) ^ 2 + h ^ 2) ≤ 0.0001 →
        (updCylinder m).cyl_1.pressure
          = Dbl.fin (ap * S / 2 * pa) / Dbl.fin (ap * (S + L - x))) := by
  have hpr := updCylinder_pressure m R r h hR hr hh
  constructor
  · intro hav
    have hav0 : 0 < Real.pi * (R + r) * Real.sqrt ((R - r) ^ 2 + h ^ 2) :=
      lt_trans (by norm_num) hav
    exact ⟨hav0, updCylinder_open_fin m R r h vp ap pa hR hr hh hvp hap hpa hav⟩
  · intro hav
    rw [hpr, if_neg (not_lt.mpr hav)]
    simp only [hap, hx, hL, hS, hpa, Dbl.lit_eq, Rat.cast_ofNat, Dbl.fin_mul,
      Dbl.fin_div _ (two_ne_zero : (2 : ℝ) ≠ 0), Dbl.fin_sub, Dbl.fin_add]

/-- C5 at the start-up state of `main`: valve radius `0.0145`, seat radius
`0.0135`, lift `0.01`, piston at rest with area `0`. -/
theorem C5_updCylinder_branches_witness :
    (0.0001 < Real.pi * (0.0145 + 0.0135) * Real.sqrt ((0.0145 - 0.0135) ^ 2 + 0.01 ^ 2) →
        0 < Real.pi * (0.0145 + 0.0135) * Real.sqrt ((0.0145 - 0.0135) ^ 2 + 0.01 ^ 2)
        ∧ (updCylinder (init : Sim Dbl)).cyl_1.pressure
          = Dbl.fin (0.5 * 1.225
              * ((0 * 0 / (Real.pi * (0.0145 + 0.0135)
                    * Real.sqrt ((0.0145 - 0.0135) ^ 2 + 0.01 ^ 2))) ^ 2
                  - 0 ^ 2) + 101325))
    ∧ (Real.pi * (0.0145 + 0.0135) * Real.sqrt ((0.0145 - 0.0135) ^ 2 + 0.01 ^ 2) ≤ 0.0001 →
        (updCylinder (init : Sim Dbl)).cyl_1.pressure
          = Dbl.fin (0 * 0.09 / 2 * 101325) / Dbl.fin (0 * (0.09 + 0.14435 - 0))) :=
  C5_updCylinder_branches init 0.0145 0.0135 0.01 0 0 0 0.14435 0.09 101325
    (by simp [init]) (by simp [init]) (by simp [init]) (by simp [init]; norm_num)
    (by simp [init]; norm_num) (by simp [init]; norm_num) (by simp [init]) (by simp [init])
    (by simp [init]; norm_num)

/-- C6 as stated fails: in the state `wideValve` the lift is `0`, yet the flow
area `π * 0.0315 * 0.0015` exceeds `0.0001`, the open-valve branch runs and
writes the pressure `101325`, not `vi * apressure / vc`. -/
theorem C6_lift_zero_counterexample :
    wideValve.head_1.exhaustDisplacement = Dbl.fin 0
    ∧ (updCylinder wideValve).cyl_1.pressure = Dbl.fin 101325
    ∧ (updCylinder wideValve).cyl_1.pressure
      ≠ wideValve.piston_1.area * wideValve.cyl_1.stroke / DoubleOps.lit 2
          * wideValve.cyl_1.apressure
          / (wideValve.piston_1.area
              * (wideValve.cyl_1.stroke + wideValve.piston_1.rodLength
                  - wideValve.piston_1.position)) := by
  have hav : (0.0001 : ℝ)
      < Real.pi * (0.0165 + 0.015) * Real.sqrt ((0.0165 - 0.015) ^ 2 + (0 : ℝ) ^ 2) := by
    have h1 : ((0.0165 : ℝ) - 0.015) ^ 2 + (0 : ℝ) ^ 2 = 0.0015 ^ 2 := by norm_num
    rw [h1, Real.sqrt_sq (by norm_num)]
    nlinarith [Real.pi_gt_three]
  have hp : (updCylinder wideValve).cyl_1.pressure = Dbl.fin 101325 := by
    have h := updCylinder_open_fin wideValve 0.0165 0.015 0 0 0.0055 101325
      (by simp [wideValve]) (by simp [wideValve]) (by simp [wideValve])
      (by simp [wideValve, init]; norm_num) (by simp [wideValve])
      (by simp [wideValve, init]; norm_num) hav
    rw [h]
    congr 1
    norm_num
  refine ⟨by simp [wideValve], hp, ?_⟩
  rw [hp]
  have hne : (0.0055 : ℝ) * (0.09 + 0.14435 - 0) ≠ 0 := by norm_num
  have e1 : wideValve.piston_1.area = Dbl.fin 0.0055 := by simp [wideValve]
  have e2 : wideValve.cyl_1.stroke = Dbl.fin 0.09 := by simp [wideValve, init]
  have e3 : wideValve.cyl_1.apressure = Dbl.fin 101325 := by simp [wideValve, init]; norm_num
  have e4 : wideValve.piston_1.rodLength = Dbl.fin 0.14435 := by simp [wideValve, init]
  have e5 : wideValve.piston_1.position = Dbl.fin 0 := by simp [wideValve, init]; norm_num
  simp only [e1, e2, e3, e4, e5, Dbl.lit_eq, Rat.cast_ofNat, Dbl.fin_mul, Dbl.fin_add,
    Dbl.fin_sub, Dbl.fin_div _ (two_ne_zero : (2 : ℝ) ≠ 0), Dbl.fin_div _ hne]
  intro h
  have h' := Dbl.fin_injective h
  norm_num at h'

/-- C6, amended: when the lift is `0` and the finite valve and seat radii `R`, `r`
satisfy `π * (R + r) * |R - r| ≤ 0.0001`, `updCylinder` sets the chamber
pressure to exactly `vi * apressure / vc` with `vi = area * stroke / 2` and
`vc = area * (stroke + rodLength - position)`; the radii `0.0145` and `0.0135`
of `main` satisfy the condition. -/
theorem C6_updCylinder_closed_valve (m : Sim Dbl) (R r : ℝ)
    (hR : m.head_1.exhaustVRadius = Dbl.fin R) (hr : m.head_1.exhaustSRadius = Dbl.fin r)
    (hh : m.head_1.exhaustDisplacement = Dbl.fin 0)
    (hav : Real.pi * (R + r) * |R - r| ≤ 0.0001) :
    (updCylinder m).cyl_1.pressure
      = m.piston_1.area * m.cyl_1.stroke / DoubleOps.lit 2 * m.cyl_1.apressure
          / (m.piston_1.area
              * (m.cyl_1.stroke + m.piston_1.rodLength - m.piston_1.position))
    ∧ Real.pi * ((0.0145 : ℝ) + 0.0135) * |(0.0145 : ℝ) - 0.0135| ≤ 0.0001 := by
  constructor
  · have hs : Real.sqrt ((R - r) ^ 2 + (0 : ℝ) ^ 2) = |R - r| := by
      have h1 : (R - r) ^ 2 + (0 : ℝ) ^ 2 = (R - r) ^ 2 := by ring
      rw [h1, Real.sqrt_sq_eq_abs]
    rw [updCylinder_pressure m R r 0 hR hr hh, hs, if_neg (not_lt.mpr hav)]
  · have h1 : |(0.0145 : ℝ) - 0.0135| = 0.001 := by
      rw [abs_of_pos (by norm_num)]
      norm_num
    rw [h1]
    nlinarith [Real.pi_lt_d2]

/-- C6 (amended) at the state `closedValve`, which has the radii of `main`. -/
theorem C6_updCylinder_closed_valve_witness :
    (updCylinder closedValve).cyl_1.pressure
      = closedValve.piston_1.area * closedValve.cyl_1.stroke / DoubleOps.lit 2
          * closedValve.cyl_1.apressure
          / (closedValve.piston_1.area
              * (closedValve.cyl_1.stroke + closedValve.piston_1.rodLength
                  - closedValve.piston_1.position))
    ∧ Real.pi * ((0.0145 : ℝ) + 0.0135) * |(0.0145 : ℝ) - 0.0135| ≤ 0.0001 :=
  C6_updCylinder_closed_valve closedValve 0.0145 0.0135 (by simp [closedValve, init])
    (by simp [closedValve, init]) (by simp [closedValve])
    (by
      have h1 : |(0.0145 : ℝ) - 0.0135| = 0.001 := by
        rw [abs_of_pos (by norm_num)]
        norm_num
      rw [h1]
      nlinarith [Real.pi_lt_d2])

/-- The flow area at the lift `0.01` or `-0.01` with the radii of `main`
exceeds the threshold. -/
theorem flow_area_open {h : ℝ} (hh : h ^ 2 = 0.01 ^ 2) :
    (0.0001 : ℝ) < Real.pi * (0.0145 + 0.0135) * Real.sqrt ((0.0145 - 0.0135) ^ 2 + h ^ 2) := by
  have h1 : (0.01 : ℝ) ≤ Real.sqrt ((0.0145 - 0.0135) ^ 2 + h ^ 2) :=
    Real.le_sqrt_of_sq_le (by rw [hh]; norm_num)
  nlinarith [Real.pi_gt_three]

/-- The flow area at the lift `0` with the radii of `main` does not exceed the
threshold. -/
theorem flow_area_closed :
    Real.pi * (0.0145 + 0.0135) * Real.sqrt ((0.0145 - 0.0135) ^ 2 + (0 : ℝ) ^ 2)
      ≤ (0.0001 : ℝ) := by
  have h1 : ((0.0145 : ℝ) - 0.0135) ^ 2 + (0 : ℝ) ^ 2 = 0.001 ^ 2 := by norm_num
  rw [h1, Real.sqrt_sq (by norm_num)]
  nlinarith [Real.pi_lt_d2]

/-- C13: with the valve radius `0.0145` and seat radius `0.0135` of `main` and
the lift `0.01 * inputy` for one of the three values `-1`, `0`, `1` the
control input can produce: for `inputy = 0` the flow area is at most `0.0001`
and `updCylinder` writes the closed-valve value `vi * apressure / vc`; for
`inputy = 1` and `inputy = -1` the flow area exceeds `0.0001` and
`updCylinder` writes the Bernoulli value. -/
theorem C13_lift_classification (m : Sim Dbl) (inputy : ℤ) (hc : isControl inputy)
    (hR : m.head_1.exhaustVRadius = DoubleOps.lit 0.0145)
    (hr : m.head_1.exhaustSRadius = DoubleOps.lit 0.0135)
    (hh : m.head_1.exhaustDisplacement = DoubleOps.lit 0.01 * DoubleOps.lit (inputy : ℚ)) :
    (inputy = 0 →
        Real.pi * (0.0145 + 0.0135)
            * Real.sqrt ((0.0145 - 0.0135) ^ 2 + (0.01 * (inputy : ℝ)) ^ 2) ≤ 0.0001
        ∧ (updCylinder m).cyl_1.pressure
          = m.piston_1.area * m.cyl_1.stroke / DoubleOps.lit 2 * m.cyl_1.apressure
              / (m.piston_1.area
                  * (m.cyl_1.stroke + m.piston_1.rodLength - m.piston_1.position)))
    ∧ (inputy ≠ 0 →
        0.0001 < Real.pi * (0.0145 + 0.0135)
            * Real.sqrt ((0.0145 - 0.0135) ^ 2 + (0.01 * (inputy : ℝ)) ^ 2)
        ∧ (updCylinder m).cyl_1.pressure
          = DoubleOps.lit 0.5 * DoubleOps.lit 1.225
              * (m.piston_1.velocity * m.piston_1.area
                    / Dbl.fin (Real.pi * (0.0145 + 0.0135)
                        * Real.sqrt ((0.0145 - 0.0135) ^ 2 + (0.01 * (inputy : ℝ)) ^ 2))
                  * (m.piston_1.velocity * m.piston_1.area
                    / Dbl.fin (Real.pi * (0.0145 + 0.0135)
                        * Real.sqrt ((0.0145 - 0.0135) ^ 2 + (0.01 * (inputy : ℝ)) ^ 2)))
                  - m.piston_1.velocity * m.piston_1.velocity)
              + m.cyl_1.apressure) := by
  have hR' : m.head_1.exhaustVRadius = Dbl.fin 0.0145 := by
    rw [hR, Dbl.lit_eq]
    congr 1
  have hr' : m.head_1.exhaustSRadius = Dbl.fin 0.0135 := by
    rw [hr, Dbl.lit_eq]
    congr 1
  have hh' : m.head_1.exhaustDisplacement = Dbl.fin (0.01 * (inputy : ℝ)) := by
    rw [hh, Dbl.lit_eq, Dbl.lit_eq, Dbl.fin_mul]
    congr 1
  have hpr := updCylinder_pressure m 0.0145 0.0135 (0.01 * (inputy : ℝ)) hR' hr' hh'
  constructor
  · intro h0
    have hav : Real.pi * (0.0145 + 0.0135)
        * Real.sqrt ((0.0145 - 0.0135) ^ 2 + (0.01 * (inputy : ℝ)) ^ 2) ≤ 0.0001 := by
      have h1 : (0.01 : ℝ) * (inputy : ℝ) = 0 := by
        rw [h0]
        norm_num
      rw [h1]
      exact flow_area_closed
    refine ⟨hav, ?_⟩
    rw [hpr, if_neg (not_lt.mpr hav)]
  · intro h0
    have hav : 0.0001 < Real.pi * (0.0145 + 0.0135)
        * Real.sqrt ((0.0145 - 0.0135) ^ 2 + (0.01 * (inputy : ℝ)) ^ 2) := by
      apply flow_area_open
      rcases hc with h | h | h
      · rw [h]
        norm_num
      · exact absurd h h0
      · rw [h]
        norm_num
    refine ⟨hav, ?_⟩
    rw [hpr, if_pos hav]

/-- C13 at the start-up state of `main`, whose lift `0.01` is the one written
for `inputy = 1`. -/
theorem C13_lift_classification_witness :
    isControl 1
    ∧ ((1 : ℤ) = 0 →
        Real.pi * (0.0145 + 0.0135)
            * Real.sqrt ((0.0145 - 0.0135) ^ 2 + (0.01 * (((1 : ℤ) : ℝ))) ^ 2) ≤ 0.0001
        ∧ (updCylinder (init : Sim Dbl)).cyl_1.pressure
          = (init : Sim Dbl).piston_1.area * (init : Sim Dbl).cyl_1.stroke / DoubleOps.lit 2
              * (init : Sim Dbl).cyl_1.apressure
              / ((init : Sim Dbl).piston_1.area
                  * ((init : Sim Dbl).cyl_1.stroke + (init : Sim Dbl).piston_1.rodLength
                      - (init : Sim Dbl).piston_1.position)))
    ∧ ((1 : ℤ) ≠ 0 →
        0.0001 < Real.pi * (0.0145 + 0.0135)
            * Real.sqrt ((0.0145 - 0.0135) ^ 2 + (0.01 * (((1 : ℤ) : ℝ))) ^ 2)
        ∧ (updCylinder (init : Sim Dbl)).cyl_1.pressure
          = DoubleOps.lit 0.5 * DoubleOps.lit 1.225
              * ((init : Sim Dbl).piston_1.velocity * (init : Sim Dbl).piston_1.area
                    / Dbl.fin (Real.pi * (0.0145 + 0.0135)
                        * Real.sqrt ((0.0145 - 0.0135) ^ 2 + (0.01 * (((1 : ℤ) : ℝ))) ^ 2))
                  * ((init : Sim Dbl).piston_1.velocity * (init : Sim Dbl).piston_1.area
                    / Dbl.fin (Real.pi * (0.0145 + 0.0135)
                        * Real.sqrt ((0.0145 - 0.0135) ^ 2 + (0.01 * (((1 : ℤ) : ℝ))) ^ 2)))
                  - (init : Sim Dbl).piston_1.velocity * (init : Sim Dbl).piston_1.velocity)
              + (init : Sim Dbl).cyl_1.apressure) :=
  ⟨Or.inr (Or.inr rfl),
    C13_lift_classification init 1 (Or.inr (Or.inr rfl)) rfl rfl
      (by simp [init])⟩

/-! ## The tick: data flow and frame -/

section Frame

variable {α : Type} [Add α] [Sub α] [Mul α] [Div α] [Neg α] [DoubleOps α]

/-- The function `updPiston` writes the piston only. -/
theorem updPiston_frame (m : Sim α) :
    (updPiston m).crankshaft = m.crankshaft ∧ (updPiston m).cyl_1 = m.cyl_1
    ∧ (updPiston m).head_1 = m.head_1
    ∧ (updPiston m).piston_1.rodLength = m.piston_1.rodLength :=
  ⟨rfl, rfl, rfl, rfl⟩

omit [Neg α] in
/-- The function `updCylinder` writes `cylinder.pressure` only. -/
theorem updCylinder_frame (m : Sim α) :
    updCylinder m
      = { m with cyl_1 := { m.cyl_1 with pressure := (updCylinder m).cyl_1.pressure } } :=
  rfl

omit [Neg α] in
/-- The function `updShaft` writes `torque`, `accel`, `omega` and `angle` of the
shaft only. -/
theorem updShaft_frame (m : Sim α) (e dt : α) :
    updShaft m e dt
      = { m with crankshaft := { m.crankshaft with
            torque := (updShaft m e dt).crankshaft.torque
            accel := (updShaft m e dt).crankshaft.accel
            omega := (updShaft m e dt).crankshaft.omega
            angle := (updShaft m e dt).crankshaft.angle } } := by
  simp only [updShaft]
  split_ifs <;> rfl

/-- The configuration constants of a state: crank radius, inertia, rod length,
bore, stroke, ambient pressure and the four valve and seat radii. -/
theorem tick_constants (m : Sim α) (inputx inputy : ℤ) (dt : α) :
    (tick m inputx inputy dt).crankshaft.radius = m.crankshaft.radius
    ∧ (tick m inputx inputy dt).crankshaft.inertia = m.crankshaft.inertia
    ∧ (tick m inputx inputy dt).piston_1.rodLength = m.piston_1.rodLength
    ∧ (tick m inputx inputy dt).cyl_1.bore = m.cyl_1.bore
    ∧ (tick m inputx inputy dt).cyl_1.stroke = m.cyl_1.stroke
    ∧ (tick m inputx inputy dt).cyl_1.apressure = m.cyl_1.apressure
    ∧ (tick m inputx inputy dt).head_1.exhaustVRadius = m.head_1.exhaustVRadius
    ∧ (tick m inputx inputy dt).head_1.exhaustSRadius = m.head_1.exhaustSRadius
    ∧ (tick m inputx inputy dt).head_1.intakeVRadius = m.head_1.intakeVRadius
    ∧ (tick m inputx inputy dt).head_1.intakeSRadius = m.head_1.intakeSRadius := by
  simp only [tick]
  rw [updShaft_frame]
  exact ⟨rfl, rfl, rfl, rfl, rfl, rfl, rfl, rfl, rfl, rfl⟩

/-- The head after a tick: only `exhaustDisplacement` is written. -/
theorem tick_head (m : Sim α) (inputx inputy : ℤ) (dt : α) :
    (tick m inputx inputy dt).head_1
      = { m.head_1 with
          exhaustDisplacement := DoubleOps.lit 0.01 * DoubleOps.lit (inputy : ℚ) } := by
  simp only [tick]
  rw [updShaft_frame]
  rfl

/-- The configuration constants are the same after any run of ticks. -/
theorem run_constants (frames : List (Frame α)) (m : Sim α) :
    (run m frames).crankshaft.radius = m.crankshaft.radius
    ∧ (run m frames).crankshaft.inertia = m.crankshaft.inertia
    ∧ (run m frames).piston_1.rodLength = m.piston_1.rodLength
    ∧ (run m frames).cyl_1.bore = m.cyl_1.bore
    ∧ (run m frames).cyl_1.stroke = m.cyl_1.stroke
    ∧ (run m frames).cyl_1.apressure = m.cyl_1.apressure
    ∧ (run m frames).head_1.exhaustVRadius = m.head_1.exhaustVRadius
    ∧ (run m frames).head_1.exhaustSRadius = m.head_1.exhaustSRadius
    ∧ (run m frames).head_1.intakeVRadius = m.head_1.intakeVRadius
    ∧ (run m frames).head_1.intakeSRadius = m.head_1.intakeSRadius := by
  induction frames generalizing m with
  | nil => exact ⟨rfl, rfl, rfl, rfl, rfl, rfl, rfl, rfl, rfl, rfl⟩
  | cons f fs ih =>
    obtain ⟨h1, h2, h3, h4, h5, h6, h7, h8, h9, h10⟩ := ih (tick m f.inputx f.inputy f.dt)
    obtain ⟨t1, t2, t3, t4, t5, t6, t7, t8, t9, t10⟩ := tick_constants m f.inputx f.inputy f.dt
    simp only [run]
    exact ⟨h1.trans t1, h2.trans t2, h3.trans t3, h4.trans t4, h5.trans t5, h6.trans t6,
      h7.trans t7, h8.trans t8, h9.trans t9, h10.trans t10⟩

/-- The torque after a tick is `TcsFromFp` of the net force written in this
tick and of the angle, rod length and radius before the tick, plus the extra
torque `100.0 * inputx`. -/
theorem tick_torque (m : Sim α) (inputx inputy : ℤ) (dt : α) :
    (tick m inputx inputy dt).crankshaft.torque
      = TcsFromFp (tick m inputx inputy dt).piston_1.nForce m.crankshaft.angle
          m.piston_1.rodLength m.crankshaft.radius
        + DoubleOps.lit 100.0 * DoubleOps.lit (inputx : ℚ) := by
  simp only [tick, updShaft]
  split_ifs <;> rfl

/-- C10: `updPiston` leaves the shaft, the cylinder, the head and
`piston.rodLength` unchanged; `updCylinder` changes no field other than
`cylinder.pressure`; `updShaft` changes no field other than `torque`, `accel`,
`omega` and `angle` of the shaft; the only head field a tick writes is
`exhaustDisplacement`; consequently crank radius, inertia, rod length, bore,
stroke, ambient pressure and the valve and seat radii are the same after any
number of ticks, whatever the inputs of each frame. -/
theorem C10_tick_frame (m : Sim α) (e dt : α) (inputx inputy : ℤ)
    (frames : List (Frame α)) :
    ((updPiston m).crankshaft = m.crankshaft ∧ (updPiston m).cyl_1 = m.cyl_1
      ∧ (updPiston m).head_1 = m.head_1
      ∧ (updPiston m).piston_1.rodLength = m.piston_1.rodLength)
    ∧ updCylinder m
        = { m with cyl_1 := { m.cyl_1 with pressure := (updCylinder m).cyl_1.pressure } }
    ∧ updShaft m e dt
        = { m with crankshaft := { m.crankshaft with
              torque := (updShaft m e dt).crankshaft.torque
              accel := (updShaft m e dt).crankshaft.accel
              omega := (updShaft m e dt).crankshaft.omega
              angle := (updShaft m e dt).crankshaft.angle } }
    ∧ (tick m inputx inputy dt).head_1
        = { m.head_1 with
            exhaustDisplacement := DoubleOps.lit 0.01 * DoubleOps.lit (inputy : ℚ) }
    ∧ ((run m frames).crankshaft.radius = m.crankshaft.radius
      ∧ (run m frames).crankshaft.inertia = m.crankshaft.inertia
      ∧ (run m frames).piston_1.rodLength = m.piston_1.rodLength
      ∧ (run m frames).cyl_1.bore = m.cyl_1.bore
      ∧ (run m frames).cyl_1.stroke = m.cyl_1.stroke
      ∧ (run m frames).cyl_1.apressure = m.cyl_1.apressure
      ∧ (run m frames).head_1.exhaustVRadius = m.head_1.exhaustVRadius
      ∧ (run m frames).head_1.exhaustSRadius = m.head_1.exhaustSRadius
      ∧ (run m frames).head_1.intakeVRadius = m.head_1.intakeVRadius
      ∧ (run m frames).head_1.intakeSRadius = m.head_1.intakeSRadius) :=
  ⟨updPiston_frame m, updCylinder_frame m, updShaft_frame m e dt,
    tick_head m inputx inputy dt, run_constants frames m⟩

end Frame

/-- The net force written by `updPiston` on finite pressures and bore. -/
theorem updPiston_nForce_fin (m : Sim Dbl) (P A b : ℝ)
    (hP : m.cyl_1.pressure = Dbl.fin P) (hA : m.cyl_1.apressure = Dbl.fin A)
    (hb : m.cyl_1.bore = Dbl.fin b) :
    (updPiston m).piston_1.nForce = Dbl.fin ((P - A) * Real.pi * (b / 2) ^ 2) := by
  simp only [updPiston, hP, hA, hb, Dbl.lit_eq, Rat.cast_ofNat, Dbl.M_PI_eq, Dbl.fin_mul,
    Dbl.fin_sub, Dbl.fin_div _ (two_ne_zero : (2 : ℝ) ≠ 0)]
  congr 1
  ring

/-- The area written by `updPiston` on a finite bore. -/
theorem updPiston_area_fin (m : Sim Dbl) (b : ℝ) (hb : m.cyl_1.bore = Dbl.fin b) :
    (updPiston m).piston_1.area = Dbl.fin (b / 2 * (b / 2) * Real.pi) := by
  simp only [updPiston, hb, Dbl.lit_eq, Rat.cast_ofNat, Dbl.M_PI_eq, Dbl.fin_mul,
    Dbl.fin_div _ (two_ne_zero : (2 : ℝ) ≠ 0)]

/-- The chamber pressure after the first tick of `main` with the valve key
pressed: the shaft is at rest, the valve is open, and the Bernoulli relation
gives the ambient pressure. -/
theorem tick_init_pressure (inputx : ℤ) (dt : Dbl) :
    (tick (init : Sim Dbl) inputx 1 dt).cyl_1.pressure = Dbl.fin 101325 := by
  have hav : (0.0001 : ℝ)
      < Real.pi * (0.0145 + 0.0135) * Real.sqrt ((0.0145 - 0.0135) ^ 2 + (0.01 : ℝ) ^ 2) := by
    have h1 : (0.01 : ℝ) ≤ Real.sqrt ((0.0145 - 0.0135) ^ 2 + (0.01 : ℝ) ^ 2) :=
      Real.le_sqrt_of_sq_le (by norm_num)
    nlinarith [Real.pi_gt_three]
  have h1 : (tick (init : Sim Dbl) inputx 1 dt).cyl_1.pressure
      = (updCylinder (updPiston { (init : Sim Dbl) with head_1 := { (init : Sim Dbl).head_1 with
          exhaustDisplacement := DoubleOps.lit 0.01 * DoubleOps.lit ((1 : ℤ) : ℚ) } })
        ).cyl_1.pressure := by
    simp only [tick]
    rw [updShaft_frame]
  have hv := updPiston_velocity_fin { (init : Sim Dbl) with head_1 := { (init : Sim Dbl).head_1 with
      exhaustDisplacement := DoubleOps.lit 0.01 * DoubleOps.lit ((1 : ℤ) : ℚ) } }
    0 0 0.045 0.14435 (by simp [init]; norm_num) (by simp [init]; norm_num) (by simp [init])
    (by simp [init]) (by norm_num) (by rw [zero_add, Real.sin_pi_div_two]; norm_num)
  have ha := updPiston_area_fin { (init : Sim Dbl) with head_1 := { (init : Sim Dbl).head_1 with
      exhaustDisplacement := DoubleOps.lit 0.01 * DoubleOps.lit ((1 : ℤ) : ℚ) } }
    0.084 (by simp [init])
  rw [h1, updCylinder_open_fin _ 0.0145 0.0135 0.01 _ _ 101325 (by simp [updPiston, init])
    (by simp [updPiston, init]) (by simp [updPiston, init]) hv ha
    (by simp [updPiston, init]; norm_num) hav]
  congr 1
  norm_num

/-- C9: in one tick (write `exhaustDisplacement`, then `updPiston`,
`updCylinder`, `updShaft`), with finite chamber pressure `P` before the tick,
ambient pressure `A` and bore `b`, the piston net force after the tick is
`(P - A) * π * (b / 2)^2`: it comes from the pressure before the tick, not
from the pressure `updCylinder` writes in the tick (in the first tick of
`main` with the valve key pressed, the net force is built from `3000000`
while the pressure after the tick is `101325`); and the shaft torque after
the tick is `TcsFromFp` of that new net force and of the angle, rod length and
radius before the tick, plus the extra torque. -/
theorem C9_tick_data_flow (m : Sim Dbl) (P A b : ℝ) (inputx inputy : ℤ) (dt : Dbl)
    (hP : m.cyl_1.pressure = Dbl.fin P) (hA : m.cyl_1.apressure = Dbl.fin A)
    (hb : m.cyl_1.bore = Dbl.fin b) :
    (tick m inputx inputy dt).piston_1.nForce = Dbl.fin ((P - A) * Real.pi * (b / 2) ^ 2)
    ∧ (tick m inputx inputy dt).crankshaft.torque
      = TcsFromFp (Dbl.fin ((P - A) * Real.pi * (b / 2) ^ 2)) m.crankshaft.angle
          m.piston_1.rodLength m.crankshaft.radius
        + DoubleOps.lit 100.0 * DoubleOps.lit (inputx : ℚ)
    ∧ ((tick (init : Sim Dbl) inputx 1 dt).piston_1.nForce
        = Dbl.fin ((3000000 - 101325) * Real.pi * (0.084 / 2) ^ 2)
      ∧ (tick (init : Sim Dbl) inputx 1 dt).cyl_1.pressure = Dbl.fin 101325) := by
  have hn : ∀ (m : Sim Dbl) (P A b : ℝ) (iy : ℤ), m.cyl_1.pressure = Dbl.fin P →
      m.cyl_1.apressure = Dbl.fin A → m.cyl_1.bore = Dbl.fin b →
      (tick m inputx iy dt).piston_1.nForce = Dbl.fin ((P - A) * Real.pi * (b / 2) ^ 2) := by
    intro m P A b iy hP hA hb
    have h1 : (tick m inputx iy dt).piston_1.nForce
        = (updPiston { m with head_1 := { m.head_1 with
            exhaustDisplacement := DoubleOps.lit 0.01 * DoubleOps.lit (iy : ℚ) } }
          ).piston_1.nForce := by
      simp only [tick]
      rw [updShaft_piston]
      rfl
    rw [h1]
    exact updPiston_nForce_fin _ P A b hP hA hb
  refine ⟨hn m P A b inputy hP hA hb, ?_, ?_, tick_init_pressure inputx dt⟩
  · rw [tick_torque, hn m P A b inputy hP hA hb]
  · exact hn init 3000000 101325 0.084 1 (by simp [init]; norm_num) (by simp [init]; norm_num)
      (by simp [init])

/-- C9 at the start-up state of `main` (chamber pressure `3000000`, ambient
pressure `101325`, bore `0.084`) with both keys pressed and time step
`0.001`. -/
theorem C9_tick_data_flow_witness :
    (tick (init : Sim Dbl) 1 1 (Dbl.fin 0.001)).piston_1.nForce
      = Dbl.fin ((3000000 - 101325) * Real.pi * (0.084 / 2) ^ 2)
    ∧ (tick (init : Sim Dbl) 1 1 (Dbl.fin 0.001)).crankshaft.torque
      = TcsFromFp (Dbl.fin ((3000000 - 101325) * Real.pi * (0.084 / 2) ^ 2))
          (init : Sim Dbl).crankshaft.angle (init : Sim Dbl).piston_1.rodLength
          (init : Sim Dbl).crankshaft.radius
        + DoubleOps.lit 100.0 * DoubleOps.lit ((1 : ℤ) : ℚ)
    ∧ ((tick (init : Sim Dbl) 1 1 (Dbl.fin 0.001)).piston_1.nForce
        = Dbl.fin ((3000000 - 101325) * Real.pi * (0.084 / 2) ^ 2)
      ∧ (tick (init : Sim Dbl) 1 1 (Dbl.fin 0.001)).cyl_1.pressure = Dbl.fin 101325) :=
  C9_tick_data_flow init 3000000 101325 0.084 1 1 (Dbl.fin 0.001)
    (by simp [init]; norm_num) (by simp [init]; norm_num) (by simp [init])

/-- The net force after a tick, from the pressure, ambient pressure and bore
before the tick. -/
theorem tick_nForce_fin (m : Sim Dbl) (P A b : ℝ) (inputx inputy : ℤ) (dt : Dbl)
    (hP : m.cyl_1.pressure = Dbl.fin P) (hA : m.cyl_1.apressure = Dbl.fin A)
    (hb : m.cyl_1.bore = Dbl.fin b) :
    (tick m inputx inputy dt).piston_1.nForce
      = Dbl.fin ((P - A) * Real.pi * (b / 2) ^ 2) := by
  have h1 : (tick m inputx inputy dt).piston_1.nForce
      = (updPiston { m with head_1 := { m.head_1 with
          exhaustDisplacement := DoubleOps.lit 0.01 * DoubleOps.lit (inputy : ℚ) } }
        ).piston_1.nForce := by
    simp only [tick]
    rw [updShaft_piston]
    rfl
  rw [h1]
  exact updPiston_nForce_fin _ P A b hP hA hb

/-- The flow area does not depend on the sign of the lift. -/
theorem FrustumLSA_neg (R r h : Dbl) : FrustumLSA R r (-h) = FrustumLSA R r h := by
  simp only [FrustumLSA, Dbl.neg_mul_neg_self]

/-- The pressure `updCylinder` writes does not depend on the sign of the
lift. -/
theorem updCylinder_neg_lift (m : Sim Dbl) :
    (updCylinder { m with head_1 := { m.head_1 with
        exhaustDisplacement := -m.head_1.exhaustDisplacement } }).cyl_1.pressure
      = (updCylinder m).cyl_1.pressure := by
  simp only [updCylinder, FrustumLSA_neg]

/-- C17: `FrustumLSA R r (-h) = FrustumLSA R r h` for all `double` values
(infinities and NaN included), so `updCylinder` writes the same chamber
pressure for the exhaust displacement `h` and for `-h`, all other fields
being equal; in particular a tick with the lift command `inputy = -1` leaves
the same chamber pressure as the tick with `inputy = 1`. -/
theorem C17_lift_sign_symmetry (m : Sim Dbl) (R r h : Dbl) (inputx : ℤ) (dt : Dbl) :
    FrustumLSA R r (-h) = FrustumLSA R r h
    ∧ (updCylinder { m with head_1 := { m.head_1 with
          exhaustDisplacement := -m.head_1.exhaustDisplacement } }).cyl_1.pressure
        = (updCylinder m).cyl_1.pressure
    ∧ (tick m inputx (-1) dt).cyl_1.pressure = (tick m inputx 1 dt).cyl_1.pressure := by
  refine ⟨FrustumLSA_neg R r h, updCylinder_neg_lift m, ?_⟩
  have hl : (DoubleOps.lit 0.01 * DoubleOps.lit (((-1 : ℤ)) : ℚ) : Dbl)
      = -(DoubleOps.lit 0.01 * DoubleOps.lit (((1 : ℤ)) : ℚ)) := by
    simp only [Dbl.lit_eq, Dbl.fin_mul, Dbl.neg_fin]
    congr 1
    push_cast
    ring
  have h1 : ∀ iy : ℤ, (tick m inputx iy dt).cyl_1.pressure
      = (updCylinder (updPiston { m with head_1 := { m.head_1 with
          exhaustDisplacement := DoubleOps.lit 0.01 * DoubleOps.lit (iy : ℚ) } })
        ).cyl_1.pressure := by
    intro iy
    simp only [tick]
    rw [updShaft_frame]
  rw [h1, h1, hl]
  simp only [updCylinder, updPiston, FrustumLSA_neg]

end Engine
